import Mathlib

/-! chromedriver-auto: version resolution, driver cache and process supervision.

A shallow embedding of `main.go`, `main_unix.go` and `main_windows.go`.
Go strings are modelled as lists of characters, Go's `(string, error)` results
as pairs of a string and an optional error, and the outside world (HTTP
service, file system, registry, child process) as explicit values that the
functions read and thread through.
-/

namespace ChromedriverAuto

/-- Go `string`, as the list of its characters. -/
abbrev Str := List Char

/-! ## `strings` helpers used by `parseVersion` -/

/-- Go `strings.Split(s, sep)` for a one-character separator: the pieces of `s`
between the occurrences of `sep`; the empty string gives one empty piece. -/
def Split : Str → Char → List Str
  | [], _ => [[]]
  | c :: cs, sep =>
    if c = sep then [] :: Split cs sep
    else
      match Split cs sep with
      | [] => [[c]]
      | p :: ps => (c :: p) :: ps

/-- Go `strings.Join(elems, sep)`. -/
def Join : List Str → Str → Str
  | [], _ => []
  | [a], _ => a
  | a :: b :: rest, sep => a ++ sep ++ Join (b :: rest) sep

/-! ## main.go -/

/-- `parseVersion` of main.go. `parts[:3]` panics when `parts` has fewer than
three elements; the panic is `none`. The result is
`(majorVersion, patchVersion)`. -/
def parseVersion (version : Str) : Option (Str × Str) :=
  let parts := Split version '.'
  if 3 ≤ parts.length then
    let patchVersion := Join (parts.take 3) ".".toList
    let majorVersion := parts.headD []
    some (majorVersion, patchVersion)
  else none

/-- Go `error` values: a message, or a message wrapping (`%w`) another error. -/
inductive GoError where
  | msg (text : Str)
  | wrap (text : Str) (inner : GoError)
  deriving DecidableEq, Repr

/-- What `http.Get(url)` followed by `io.ReadAll(resp.Body)` can produce:
`http.Get` fails, or there is a response with a status code whose body is read
in full or fails to be read. -/
inductive HttpResult where
  | getError (err : GoError)
  | response (statusCode : Nat) (body : Except GoError Str)

/-- The remote service: the outcome of a GET of each URL. -/
abbrev HttpService := Str → HttpResult

def urlBase : Str := "https://chromedriver.storage.googleapis.com".toList

/-- `fmt.Sprintf(urlLatest, version)` with `urlLatest = urlBase + "/LATEST_RELEASE_%s"`. -/
def urlLatest (version : Str) : Str := urlBase ++ "/LATEST_RELEASE_".toList ++ version

/-- `http.StatusNotFound`. -/
def StatusNotFound : Nat := 404

/-- `http.StatusOK`. -/
def StatusOK : Nat := 200

/-- `getLatestDriverForVersion` of main.go. `requests` is the list of URLs
requested so far, oldest first; the function appends the URL it requests. The
result is Go's `(string, error)` pair together with the new request list. -/
def getLatestDriverForVersion (http : HttpService) (version : Str) (requests : List Str) :
    (Str × Option GoError) × List Str :=
  let url := urlLatest version
  let requests := requests ++ [url]
  match http url with
  | .getError err =>
    (([], some (.wrap ("could not get latest driver version for ".toList ++ version ++ ": ".toList)
      err)), requests)
  | .response _ (.error err) =>
    (([], some (.wrap "could not read latest driver version: ".toList err)), requests)
  | .response statusCode (.ok latest) =>
    if statusCode = StatusNotFound then (([], none), requests)
    else ((latest, none), requests)

/-- The loop of `tryLatestDriverForVersion` over its candidates `(t, version)`. -/
def tryCandidates (http : HttpService) :
    List (Str × Str) → List Str → (Str × Option GoError) × List Str
  | [], requests => (([], none), requests)
  | candidate :: rest, requests =>
    match getLatestDriverForVersion http candidate.2 requests with
    | ((_, some err), requests) => (([], some err), requests)
    | ((latestVersion, none), requests) =>
      if latestVersion ≠ [] then ((latestVersion, none), requests)
      else tryCandidates http rest requests

/-- `tryLatestDriverForVersion` of main.go. -/
def tryLatestDriverForVersion (http : HttpService) (majorVersion patchVersion : Str)
    (requests : List Str) : (Str × Option GoError) × List Str :=
  tryCandidates http
    [("patch version".toList, patchVersion), ("major version".toList, majorVersion)] requests

/-- An opened archive entry as `io.Copy(file, zf)` sees it: the bytes that reach
the file, and the error that ends the copy early, if any. -/
structure ZipEntry where
  written : Str
  copyError : Option GoError

/-- Everything of the platform and its libraries that the code reads: the
build constants `fileExt` and `zipNameSuffix`, `os.TempDir()`,
`filepath.Join`, the ways `os.Stat` (other than not-exist), `os.MkdirAll` and
`os.OpenFile` can fail on a path, and `archive/zip` (`zip.NewReader` on the
downloaded bytes, then `Open` of an entry name). -/
structure Platform where
  fileExt : Str
  zipNameSuffix : Str
  tempDir : Str
  join : Str → Str → Str
  statError : Str → Option GoError
  mkdirAllError : Str → Option GoError
  openFileError : Str → Option GoError
  zipNewReader : Str → Except GoError (Str → Except GoError ZipEntry)

/-- The state the program changes: the URLs requested so far, the regular files
that exist with their contents, the directories that exist, and how many times
`downloadDriverVersion` has been called. -/
structure World where
  requests : List Str
  files : List (Str × Str)
  dirs : List Str
  downloadCalls : Nat

/-- Whether `path` names an existing file or directory. -/
def World.pathExists (w : World) (path : Str) : Bool :=
  (w.files.lookup path).isSome || w.dirs.contains path

/-- Replaces the content of the file at `path`, creating the file if needed. -/
def World.writeFile (w : World) (path content : Str) : World :=
  { w with files := (path, content) :: w.files.filter (fun f => f.1 ≠ path) }

/-- `fmt.Sprintf(urlDownload, version, zipName)` with
`urlDownload = urlBase + "/%s/%s"`. -/
def urlDownload (version zipName : Str) : Str :=
  urlBase ++ "/".toList ++ version ++ "/".toList ++ zipName

/-- `fmt.Sprintf(zipNameFmt, zipNameSuffix)`. -/
def zipNameFmt (zipNameSuffix : Str) : Str :=
  "chromedriver_".toList ++ zipNameSuffix ++ ".zip".toList

/-- `fmt.Sprintf(zipFileFmt, fileExt)`. -/
def zipFileFmt (fileExt : Str) : Str := "chromedriver".toList ++ fileExt

def dirName : Str := "chromedriver-auto.tmp".toList

/-- `fmt.Sprintf(fileFmt, version, fileExt)`. -/
def fileFmt (version fileExt : Str) : Str := "chromedriver_v".toList ++ version ++ fileExt

/-- `downloadDriverVersion` of main.go, writing to the open file at `file`. -/
def downloadDriverVersion (P : Platform) (http : HttpService) (version file : Str) (w : World) :
    Option GoError × World :=
  let zipName := zipNameFmt P.zipNameSuffix
  let url := urlDownload version zipName
  let w := { w with requests := w.requests ++ [url], downloadCalls := w.downloadCalls + 1 }
  match http url with
  | .getError err =>
    (some (.wrap ("could not get driver package ".toList ++ version ++ ": ".toList) err), w)
  | .response _ (.error err) =>
    (some (.wrap "could not download driver package: ".toList err), w)
  | .response statusCode (.ok content) =>
    if statusCode ≠ StatusOK then
      (some (.msg "could not get driver package: not found".toList), w)
    else
      match P.zipNewReader content with
      | .error err => (some (.wrap "could not read driver package: ".toList err), w)
      | .ok zr =>
        match zr (zipFileFmt P.fileExt) with
        | .error err => (some (.wrap "could not open driver package: ".toList err), w)
        | .ok zf =>
          let w := w.writeFile file zf.written
          match zf.copyError with
          | some err => (some (.wrap "could not write driver file: ".toList err), w)
          | none => (none, w)

/-- `getDriverForVersion` of main.go. -/
def getDriverForVersion (P : Platform) (http : HttpService) (version : Str) (w : World) :
    (Str × Option GoError) × World :=
  let tempDir := P.join P.tempDir dirName
  let tempFile := P.join tempDir (fileFmt version P.fileExt)
  match P.statError tempFile with
  | some err => (([], some (.wrap "error while checking driver file: ".toList err)), w)
  | none =>
    if w.pathExists tempFile then ((tempFile, none), w)
    else
      match P.mkdirAllError tempDir with
      | some err => (([], some (.wrap "could not create temp directory: ".toList err)), w)
      | none =>
        let w := { w with dirs := if w.dirs.contains tempDir then w.dirs else tempDir :: w.dirs }
        match P.openFileError tempFile with
        | some err => (([], some err), w)
        | none =>
          let w := w.writeFile tempFile []
          match downloadDriverVersion P http version tempFile w with
          | (some err, w) => (([], some (.wrap "could not create driver file: ".toList err)), w)
          | (none, w) => ((tempFile, none), w)

/-! ## `regexp`: leftmost-first matching, as used by `versionPattern` -/

/-- The regular expressions needed for `versionPattern`. Every repetition is
greedy, as written in the source. -/
inductive Regex where
  | digit
  | char (c : Char)
  | seq (r s : Regex)
  | opt (r : Regex)
  | plus (r : Regex)
  | atLeast (n : Nat) (r : Regex)

/-- A backtracking matcher: given the input that is left and what to do with
the rest once this piece has matched, the first success in preference order. -/
abbrev Matcher := Str → (Str → Option Str) → Option Str

/-- One or more greedy iterations of `step`: after an iteration that consumed
input, another iteration is preferred to stopping. `fuel` bounds the number
of iterations; the input length plus one is never used up, since every further
iteration starts on a strictly shorter input. -/
def loopPlus (step : Matcher) : Nat → Matcher
  | 0, _, _ => none
  | fuel + 1, s, k =>
    step s (fun s1 =>
      if s1.length < s.length then (loopPlus step fuel s1 k).orElse (fun _ => k s1)
      else k s1)

/-- Greedy `r+`. -/
def plusMatcher (step : Matcher) : Matcher :=
  fun s k => loopPlus step (s.length + 1) s k

/-- Greedy `r{n,}`: `n` iterations, then as many more as possible. -/
def atLeastMatcher (step : Matcher) : Nat → Matcher
  | 0 => fun s k => (plusMatcher step s k).orElse (fun _ => k s)
  | n + 1 => fun s k => step s (fun s1 => atLeastMatcher step n s1 k)

/-- The matcher of a regular expression. `\d` is an ASCII digit. -/
def Regex.matcher : Regex → Matcher
  | .digit => fun s k =>
    match s with
    | c :: cs => if c.isDigit then k cs else none
    | [] => none
  | .char c => fun s k =>
    match s with
    | d :: cs => if d = c then k cs else none
    | [] => none
  | .seq r s => fun s0 k => r.matcher s0 (fun s1 => s.matcher s1 k)
  | .opt r => fun s k => (r.matcher s k).orElse (fun _ => k s)
  | .plus r => plusMatcher r.matcher
  | .atLeast n r => atLeastMatcher r.matcher n

/-- The text of the match of `r` that starts at the leftmost possible position
of `s`, if there is a match. -/
def Regex.find (r : Regex) : Str → Option Str
  | [] => (r.matcher [] some).map (fun _ => [])
  | c :: cs =>
    match r.matcher (c :: cs) some with
    | some rest => some ((c :: cs).take ((c :: cs).length - rest.length))
    | none => Regex.find r cs

/-- Go `(*Regexp).FindString`: the leftmost match, or the empty string. -/
def Regex.FindString (r : Regex) (s : Str) : Str := (r.find s).getD []

/-! ## main_unix.go -/

namespace Unix

/-- The pattern `(\d+\.?){3,}`. -/
def versionPattern : Regex :=
  .atLeast 3 (.seq (.plus .digit) (.opt (.char '.')))

def browserBinaries : List Str :=
  ["google-chrome".toList, "chrome".toList, "chromium".toList, "chromium-browser".toList]

/-- What `getInstalledVersion` asks of the system: `exec.LookPath`,
`filepath.Abs`, and the output of running a binary with `--version`. -/
structure System where
  lookPath : Str → Except GoError Str
  abs : Str → Except GoError Str
  versionOutput : Str → Except GoError Str

/-- The search loop of `getInstalledVersion`: every binary that is found
overwrites `path`. -/
def searchBinaries (sys : System) : List Str → Str → Str
  | [], path => path
  | binary :: rest, path =>
    match sys.lookPath binary with
    | .error _ => searchBinaries sys rest path
    | .ok binaryPath =>
      match sys.abs binaryPath with
      | .error _ => searchBinaries sys rest path
      | .ok binaryPath => searchBinaries sys rest binaryPath

/-- `getInstalledVersion` of main_unix.go. -/
def getInstalledVersion (sys : System) : Str :=
  let path := searchBinaries sys browserBinaries []
  if path = [] then []
  else
    match sys.versionOutput path with
    | .error _ => []
    | .ok output => versionPattern.FindString output

end Unix

/-! ## main_windows.go -/

namespace Windows

/-- The predefined registry roots; any other open key is `other`. -/
inductive RegistryKey where
  | LOCAL_MACHINE
  | CURRENT_USER
  | other (handle : Nat)
  deriving DecidableEq

/-- The registry: `registry.OpenKey(root, path, QUERY_VALUE)` gives the opened
key or fails (`none`); `GetStringValue(attr)` on an opened key gives the string
or fails (`none`). -/
abbrev Registry := RegistryKey → Str → Option (Str → Option Str)

def regWorkaroundPrefix : Str := "Software\\".toList

def regWorkaroundAltPrefix : Str := "Software\\Wow6432Node".toList

def regChromeUpdaterStableKey : Str :=
  "Software\\Google\\Update\\Clients\\\x7b8A69D345-D564-463c-AFF1-A69D9E530F96\x7d".toList

def regChromeUpdaterAttr : Str := "pv".toList

def regChromeBeaconKey : Str := "Software\\Google\\Chrome\\BLBeacon".toList

def regChromeBeaconAttr : Str := "version".toList

/-- `k.GetStringValue(attr)`: on an error the returned string is empty. -/
def GetStringValue (k : Str → Option Str) (attr : Str) : Str := (k attr).getD []

/-- `getRegistryValue` of main_windows.go. -/
def getRegistryValue (reg : Registry) (root : RegistryKey) (path attr : Str) : Str :=
  match reg root path with
  | some k => GetStringValue k attr
  | none =>
    if regWorkaroundPrefix.isPrefixOf path then
      let path := regWorkaroundAltPrefix ++ "\\".toList ++ path.drop regWorkaroundPrefix.length
      match reg root path with
      | none => []
      | some k => GetStringValue k attr
    else []

/-- The candidates of `getInstalledVersion`: `(t, root, path, attr)`. -/
def candidates : List (Str × RegistryKey × Str × Str) :=
  [ ("local user beacon".toList, .CURRENT_USER, regChromeBeaconKey, regChromeBeaconAttr),
    ("local user updater".toList, .CURRENT_USER, regChromeUpdaterStableKey, regChromeUpdaterAttr),
    ("machine-wide updater".toList, .LOCAL_MACHINE, regChromeUpdaterStableKey,
      regChromeUpdaterAttr) ]

/-- The loop of `getInstalledVersion` over its candidates. -/
def firstVersion (reg : Registry) : List (Str × RegistryKey × Str × Str) → Str
  | [] => []
  | candidate :: rest =>
    let version := getRegistryValue reg candidate.2.1 candidate.2.2.1 candidate.2.2.2
    if version ≠ [] then version else firstVersion reg rest

/-- `getInstalledVersion` of main_windows.go. -/
def getInstalledVersion (reg : Registry) : Str := firstVersion reg candidates

/-- What `cmd.Wait()` returns: `nil`, an `*exec.ExitError` whose `ExitCode()`
is `exitCode`, or another error. -/
inductive WaitResult where
  | success
  | exitError (exitCode : Int)
  | otherError (err : GoError)

/-- How `runDriver` ends: it returns, it calls `os.Exit(code)`, or it calls
`log.Fatalf`. -/
inductive RunResult where
  | returned
  | osExit (code : Int)
  | logFatal (message : Str)

/-- `runDriver` of main_windows.go, given the result of `cmd.Start()` and of
`cmd.Wait()`. The signal handler goroutine acts only when a signal arrives and
is left out. -/
def runDriver (startError : Option GoError) (wait : WaitResult) : RunResult :=
  match startError with
  | some _ => .logFatal "Could not start wrapped process".toList
  | none =>
    match wait with
    | .success => .returned
    | .exitError exitCode => .osExit exitCode
    | .otherError _ => .logFatal "Unknown error while running driver".toList

/-- Go `int(x)` for a `uint32` value `x`, where `int` has `intBits` bits. -/
def uint32ToInt (intBits : Nat) (x : Nat) : Int :=
  if x % 2 ^ intBits < 2 ^ (intBits - 1) then (x % 2 ^ intBits : Nat)
  else ((x % 2 ^ intBits : Nat) : Int) - (2 ^ intBits : Nat)

/-- Go `uint32(code)` for an `int` value: the exit status that
`os.Exit(code)` hands to `ExitProcess`. -/
def intToUint32 (code : Int) : Nat := (code % (2 ^ 32 : Nat)).toNat

/-- `cmd.Wait()` for a child that exits on its own with the 32-bit exit code
`code`: `nil` for a zero exit status, otherwise an `*exec.ExitError` whose
`ExitCode()` is `int(code)`. -/
def waitExited (intBits : Nat) (code : Nat) : WaitResult :=
  if code = 0 then .success else .exitError (uint32ToInt intBits code)

/-- The exit status of the whole program once `runDriver` has ended: `main`
returns right after `runDriver`, which is exit status 0; `log.Fatalf` is
`os.Exit(1)`. -/
def exitStatus : RunResult → Nat
  | .returned => 0
  | .osExit code => intToUint32 code
  | .logFatal _ => 1

end Windows

/-! ## Concrete environments for the examples -/

/-- The path `tempFile` that `getDriverForVersion` computes for a release. -/
def cacheFile (P : Platform) (version : Str) : Str :=
  P.join (P.join P.tempDir dirName) (fileFmt version P.fileExt)

/-- A lookup service that has a release for the patch version `114.0.5735`
and answers 404 to everything else. -/
def patchService : HttpService := fun url =>
  if url = urlLatest "114.0.5735".toList then .response 200 (.ok "114.0.5735.90".toList)
  else .response 404 (.ok "NoSuchKey".toList)

/-- A lookup service that has a release for the major version `114` only. -/
def majorService : HttpService := fun url =>
  if url = urlLatest "114".toList then .response 200 (.ok "114.0.5735.90".toList)
  else .response 404 (.ok "NoSuchKey".toList)

/-- A service that cannot be reached. -/
def downService : HttpService := fun _ => .getError (.msg "connection refused".toList)

/-- A lookup service that answers the patch query with status 500 and an empty
body, and has a release for the major version `114`. -/
def brokenPatchService : HttpService := fun url =>
  if url = urlLatest "114.0.5735".toList then .response 500 (.ok [])
  else if url = urlLatest "114".toList then .response 200 (.ok "114.0.5735.90".toList)
  else .response 404 (.ok [])

/-- A Linux-like platform on which no file system call fails and every
downloaded body is an archive holding the one entry `chromedriver`. -/
def linuxPlatform : Platform where
  fileExt := []
  zipNameSuffix := "linux64".toList
  tempDir := "/tmp".toList
  join := fun a b => a ++ "/".toList ++ b
  statError := fun _ => none
  mkdirAllError := fun _ => none
  openFileError := fun _ => none
  zipNewReader := fun content => .ok (fun name =>
    if name = "chromedriver".toList then .ok ⟨content, none⟩
    else .error (.msg "file does not exist".toList))

/-- A world with no files, no directories and no requests made. -/
def emptyWorld : World := ⟨[], [], [], 0⟩

/-- A system on which only `chromium` is installed and prints `Chromium 123`
when asked for its version. -/
def chromiumSystem : Unix.System where
  lookPath := fun binary =>
    if binary = "chromium".toList then .ok "/usr/bin/chromium".toList
    else .error (.msg "executable file not found in $PATH".toList)
  abs := fun path => .ok path
  versionOutput := fun _ => .ok "Chromium 123 \n".toList

/-- A registry whose only Chrome key is the machine-wide updater key, stored
under the `Wow6432Node` subkey, with `pv` set to `114.0.5735.90`. -/
def machineWideRegistry : Windows.Registry := fun root path =>
  if root = .LOCAL_MACHINE ∧ path = "Software\\Wow6432Node\\Google\\Update\\Clients\\\x7b8A69D345-D564-463c-AFF1-A69D9E530F96\x7d".toList then
    some (fun attr => if attr = "pv".toList then some "114.0.5735.90".toList else none)
  else none

/-! ## Lemmas on `Split` and `Join` -/

theorem Split_ne_nil (s : Str) (sep : Char) : Split s sep ≠ [] := by
  cases s with
  | nil => simp [Split]
  | cons c cs =>
    unfold Split
    split
    · simp
    · split <;> simp

/-- Joining the pieces of a split with the separator gives the string back. -/
theorem Join_Split (s : Str) (sep : Char) : Join (Split s sep) [sep] = s := by
  induction s with
  | nil => simp [Split, Join]
  | cons c cs ih =>
    unfold Split
    split
    · next h =>
      subst h
      cases hq : Split cs c with
      | nil => exact absurd hq (Split_ne_nil cs c)
      | cons p ps =>
        rw [hq] at ih
        simp [Join, ih]
    · cases hq : Split cs sep with
      | nil => exact absurd hq (Split_ne_nil cs sep)
      | cons p ps =>
        rw [hq] at ih
        cases ps with
        | nil => simpa [Join] using ih
        | cons q qs =>
          simp only [Join] at ih ⊢
          simp [← ih]

/-- No piece of a split contains the separator. -/
theorem Split_no_sep (s : Str) (sep : Char) : ∀ p ∈ Split s sep, sep ∉ p := by
  induction s with
  | nil => simp [Split]
  | cons c cs ih =>
    unfold Split
    split
    · intro p hp
      rcases List.mem_cons.1 hp with h | h
      · simp [h]
      · exact ih p h
    · next hne =>
      cases hq : Split cs sep with
      | nil => exact absurd hq (Split_ne_nil cs sep)
      | cons q qs =>
        rw [hq] at ih
        intro p hp
        rcases List.mem_cons.1 hp with h | h
        · subst h
          have := ih q (List.mem_cons_self _ _)
          simp only [List.mem_cons, not_or]
          exact ⟨fun h => hne h.symm, this⟩
        · exact ih p (List.mem_cons_of_mem _ h)

/-! ## Properties of the program -/

/-! ### Version parsing -/

/-- C1: for every version string that splits on `.` into at least three
components, `parseVersion` succeeds (the slice `parts[:3]` is in bounds), its
`patchVersion` is the first three components joined with `.` and its
`majorVersion` is the first component; the components are the dot-free pieces
of the version string. -/
theorem parseVersion_of_three_components (version : Str)
    (h : 3 ≤ (Split version '.').length) :
    ∃ a b c rest,
      Split version '.' = a :: b :: c :: rest ∧
      version = Join (a :: b :: c :: rest) ['.'] ∧
      '.' ∉ a ∧ '.' ∉ b ∧ '.' ∉ c ∧
      parseVersion version = some (a, a ++ ['.'] ++ b ++ ['.'] ++ c) := by
  match hs : Split version '.', h with
  | a :: b :: c :: rest, _ =>
    refine ⟨a, b, c, rest, rfl, ?_, ?_, ?_, ?_, ?_⟩
    · rw [← hs, Join_Split]
    · exact Split_no_sep version '.' a (by simp [hs])
    · exact Split_no_sep version '.' b (by simp [hs])
    · exact Split_no_sep version '.' c (by simp [hs])
    · simp [parseVersion, hs, Join]

theorem parseVersion_of_three_components_witness :
    3 ≤ (Split "114.0.5735.90".toList '.').length ∧
    ∃ a b c rest,
      Split "114.0.5735.90".toList '.' = a :: b :: c :: rest ∧
      "114.0.5735.90".toList = Join (a :: b :: c :: rest) ['.'] ∧
      '.' ∉ a ∧ '.' ∉ b ∧ '.' ∉ c ∧
      parseVersion "114.0.5735.90".toList = some (a, a ++ ['.'] ++ b ++ ['.'] ++ c) :=
  ⟨by decide, parseVersion_of_three_components "114.0.5735.90".toList (by decide)⟩

/-! ### Tiered lookup -/

/-- Every lookup appends exactly its own URL to the request list. -/
theorem getLatestDriverForVersion_requests (http : HttpService) (version : Str)
    (requests : List Str) :
    (getLatestDriverForVersion http version requests).2 = requests ++ [urlLatest version] := by
  unfold getLatestDriverForVersion
  dsimp only
  generalize http (urlLatest version) = res
  rcases res with err | ⟨statusCode, (err | latest)⟩
  · rfl
  · rfl
  · by_cases hs : statusCode = StatusNotFound <;> simp [hs]

/-- The outcome of a lookup does not depend on the requests made before it. -/
theorem getLatestDriverForVersion_outcome (http : HttpService) (version : Str)
    (requests requests' : List Str) :
    (getLatestDriverForVersion http version requests).1 =
      (getLatestDriverForVersion http version requests').1 := by
  unfold getLatestDriverForVersion
  dsimp only
  generalize http (urlLatest version) = res
  rcases res with err | ⟨statusCode, (err | latest)⟩
  · rfl
  · rfl
  · by_cases hs : statusCode = StatusNotFound <;> simp [hs]

/-- A lookup that fails returns the empty string with its error. -/
theorem getLatestDriverForVersion_error_empty (http : HttpService) (version : Str)
    (requests : List Str) (err : GoError)
    (h : (getLatestDriverForVersion http version requests).1.2 = some err) :
    (getLatestDriverForVersion http version requests).1.1 = [] := by
  unfold getLatestDriverForVersion at h ⊢
  dsimp only at h ⊢
  generalize http (urlLatest version) = res at h ⊢
  rcases res with err | ⟨statusCode, (err | latest)⟩
  · rfl
  · rfl
  · by_cases hs : statusCode = StatusNotFound <;> simp [hs] at h ⊢

/-- The loop on one candidate whose lookup gave `outcome`. -/
theorem tryCandidates_cons (http : HttpService) (candidate : Str × Str)
    (rest : List (Str × Str)) (requests : List Str) :
    tryCandidates http (candidate :: rest) requests =
      match (getLatestDriverForVersion http candidate.2 requests).1 with
      | (_, some err) => (([], some err), requests ++ [urlLatest candidate.2])
      | (latestVersion, none) =>
        if latestVersion ≠ [] then ((latestVersion, none), requests ++ [urlLatest candidate.2])
        else tryCandidates http rest (requests ++ [urlLatest candidate.2]) := by
  have hreq := getLatestDriverForVersion_requests http candidate.2 requests
  rw [tryCandidates]
  rcases hg : getLatestDriverForVersion http candidate.2 requests with ⟨⟨latest, e⟩, reqs⟩
  rw [hg] at hreq
  simp only at hreq
  subst hreq
  cases e <;> rfl

/-- C2: if the lookup for `patchVersion` returns a non-empty release `r`, then
`tryLatestDriverForVersion` returns `(r, nil)` and the only request it makes is
the one for `patchVersion`: the patch tier is queried first and the major tier
is never queried. -/
theorem tryLatest_patch_found (http : HttpService) (majorVersion patchVersion r : Str)
    (requests : List Str)
    (h : (getLatestDriverForVersion http patchVersion requests).1 = (r, none))
    (hr : r ≠ []) :
    tryLatestDriverForVersion http majorVersion patchVersion requests =
      ((r, none), requests ++ [urlLatest patchVersion]) := by
  rw [tryLatestDriverForVersion, tryCandidates_cons]
  simp only [h]
  simp [hr]

/-- C3: if the lookup for `patchVersion` returns no result (empty, no error),
then `tryLatestDriverForVersion` is exactly the lookup for `majorVersion`, made
after the patch request: a release `r` found there is returned as `(r, nil)`,
and no result there gives `("", nil)`. -/
theorem tryLatest_patch_not_found (http : HttpService) (majorVersion patchVersion : Str)
    (requests : List Str)
    (h : (getLatestDriverForVersion http patchVersion requests).1 = ([], none)) :
    tryLatestDriverForVersion http majorVersion patchVersion requests =
        getLatestDriverForVersion http majorVersion (requests ++ [urlLatest patchVersion]) ∧
      (∀ r, r ≠ [] → (getLatestDriverForVersion http majorVersion []).1 = (r, none) →
        (tryLatestDriverForVersion http majorVersion patchVersion requests).1 = (r, none)) ∧
      ((getLatestDriverForVersion http majorVersion []).1 = ([], none) →
        (tryLatestDriverForVersion http majorVersion patchVersion requests).1 = ([], none)) := by
  have key : tryLatestDriverForVersion http majorVersion patchVersion requests =
      getLatestDriverForVersion http majorVersion (requests ++ [urlLatest patchVersion]) := by
    rw [tryLatestDriverForVersion, tryCandidates_cons]
    simp only [h]
    simp only [ne_eq, not_true_eq_false, if_false]
    rw [tryCandidates_cons]
    have hreq := getLatestDriverForVersion_requests http majorVersion
      (requests ++ [urlLatest patchVersion])
    have hemp := getLatestDriverForVersion_error_empty http majorVersion
      (requests ++ [urlLatest patchVersion])
    rcases hg : getLatestDriverForVersion http majorVersion
      (requests ++ [urlLatest patchVersion]) with ⟨⟨latest, e⟩, reqs⟩
    rw [hg] at hreq hemp
    simp only at hreq hemp
    subst hreq
    cases e with
    | some err =>
      have := hemp err rfl
      subst this
      rfl
    | none =>
      by_cases hl : latest = []
      · subst hl
        simp [tryCandidates]
      · simp [hl]
  refine ⟨key, ?_, ?_⟩
  · intro r _ hm
    rw [key, getLatestDriverForVersion_outcome http majorVersion _ [], hm]
  · intro hm
    rw [key, getLatestDriverForVersion_outcome http majorVersion _ [], hm]

/-- C4: if the lookup for `patchVersion` fails with an error, then
`tryLatestDriverForVersion` returns that error with an empty release, and the
only request made is the one for `patchVersion`: the major tier is never
queried. -/
theorem tryLatest_patch_error (http : HttpService) (majorVersion patchVersion : Str)
    (requests : List Str) (err : GoError)
    (h : (getLatestDriverForVersion http patchVersion requests).1.2 = some err) :
    tryLatestDriverForVersion http majorVersion patchVersion requests =
      (([], some err), requests ++ [urlLatest patchVersion]) := by
  rw [tryLatestDriverForVersion, tryCandidates_cons]
  rcases hg : (getLatestDriverForVersion http patchVersion requests).1 with ⟨latest, e⟩
  rw [hg] at h
  simp only at h
  subst h
  rfl

theorem tryLatest_patch_found_witness :
    ((getLatestDriverForVersion patchService "114.0.5735".toList []).1 =
        ("114.0.5735.90".toList, none) ∧ "114.0.5735.90".toList ≠ []) ∧
      tryLatestDriverForVersion patchService "114".toList "114.0.5735".toList [] =
        (("114.0.5735.90".toList, none), [] ++ [urlLatest "114.0.5735".toList]) :=
  ⟨⟨by decide, by decide⟩,
    tryLatest_patch_found patchService "114".toList "114.0.5735".toList "114.0.5735.90".toList []
      (by decide) (by decide)⟩

theorem tryLatest_patch_not_found_witness :
    (getLatestDriverForVersion majorService "114.0.5735".toList []).1 = ([], none) ∧
      (tryLatestDriverForVersion majorService "114".toList "114.0.5735".toList []).1 =
        ("114.0.5735.90".toList, none) :=
  ⟨by decide,
    (tryLatest_patch_not_found majorService "114".toList "114.0.5735".toList [] (by decide)).2.1
      "114.0.5735.90".toList (by decide) (by decide)⟩

theorem tryLatest_patch_error_witness :
    (getLatestDriverForVersion downService "114.0.5735".toList []).1.2 =
        some (.wrap "could not get latest driver version for 114.0.5735: ".toList
          (.msg "connection refused".toList)) ∧
      tryLatestDriverForVersion downService "114".toList "114.0.5735".toList [] =
        (([], some (.wrap "could not get latest driver version for 114.0.5735: ".toList
          (.msg "connection refused".toList))), [] ++ [urlLatest "114.0.5735".toList]) :=
  ⟨by decide,
    tryLatest_patch_error downService "114".toList "114.0.5735".toList [] _ (by decide)⟩

/-- C5, at the failing input: the patch query is answered with status 500 and
an empty body. The lookup reports no result and no error, so
`tryLatestDriverForVersion` goes on to the major tier, requests it and returns
its release, although the patch response was not a 404. -/
theorem tryLatest_falls_back_on_status_500 :
    (getLatestDriverForVersion brokenPatchService "114.0.5735".toList []).1 = ([], none) ∧
      tryLatestDriverForVersion brokenPatchService "114".toList "114.0.5735".toList [] =
        (("114.0.5735.90".toList, none),
          [urlLatest "114.0.5735".toList, urlLatest "114".toList]) := by
  decide

/-! ### Driver cache -/

theorem writeFile_pathExists (w : World) (path content : Str) :
    (w.writeFile path content).pathExists path = true := by
  simp [World.writeFile, World.pathExists, List.lookup]

/-- Every call of the downloader is counted once. -/
theorem downloadDriverVersion_calls (P : Platform) (http : HttpService) (version file : Str)
    (w : World) :
    (downloadDriverVersion P http version file w).2.downloadCalls = w.downloadCalls + 1 := by
  unfold downloadDriverVersion
  dsimp only
  generalize http (urlDownload version (zipNameFmt P.zipNameSuffix)) = res
  rcases res with err | ⟨statusCode, (err | content)⟩
  · rfl
  · rfl
  · dsimp only
    split
    · rfl
    · split
      · rfl
      · split
        · rfl
        · split <;> rfl

/-- The downloader never removes the file it writes to. -/
theorem downloadDriverVersion_pathExists (P : Platform) (http : HttpService)
    (version file : Str) (w : World) (h : w.pathExists file = true) :
    (downloadDriverVersion P http version file w).2.pathExists file = true := by
  unfold downloadDriverVersion
  dsimp only
  generalize http (urlDownload version (zipNameFmt P.zipNameSuffix)) = res
  rcases res with err | ⟨statusCode, (err | content)⟩
  · exact h
  · exact h
  · dsimp only
    split
    · exact h
    · split
      · exact h
      · split
        · exact h
        · split <;> exact writeFile_pathExists _ _ _

/-- Whether the downloader fails does not depend on the state it starts in. -/
theorem downloadDriverVersion_outcome (P : Platform) (http : HttpService) (version file : Str)
    (w w' : World) :
    (downloadDriverVersion P http version file w).1 =
      (downloadDriverVersion P http version file w').1 := by
  unfold downloadDriverVersion
  dsimp only
  generalize http (urlDownload version (zipNameFmt P.zipNameSuffix)) = res
  rcases res with err | ⟨statusCode, (err | content)⟩
  · rfl
  · rfl
  · dsimp only
    split
    · rfl
    · split
      · rfl
      · split
        · rfl
        · split <;> rfl

/-- A cache hit: when the cache file can be examined and exists, it is returned
and nothing changes. -/
theorem getDriverForVersion_hit (P : Platform) (http : HttpService) (version : Str)
    (w : World) (hstat : P.statError (cacheFile P version) = none)
    (hex : w.pathExists (cacheFile P version) = true) :
    getDriverForVersion P http version w = ((cacheFile P version, none), w) := by
  unfold cacheFile at hstat hex ⊢
  unfold getDriverForVersion
  simp only [hstat, hex, if_true]

/-- What one call does to the download counter: it is left alone, or it grows
by one and then the cache file exists and can be examined. -/
theorem getDriverForVersion_calls (P : Platform) (http : HttpService) (version : Str)
    (w : World) :
    (getDriverForVersion P http version w).2.downloadCalls = w.downloadCalls ∨
      ((getDriverForVersion P http version w).2.downloadCalls = w.downloadCalls + 1 ∧
        P.statError (cacheFile P version) = none ∧
        (getDriverForVersion P http version w).2.pathExists (cacheFile P version) = true) := by
  unfold cacheFile getDriverForVersion
  dsimp only
  split
  · exact Or.inl rfl
  · next hstat =>
    split
    · exact Or.inl rfl
    · split
      · exact Or.inl rfl
      · split
        · exact Or.inl rfl
        · right
          split
          · next err w1 hd =>
            have h2 := congrArg (fun r => r.2.downloadCalls) hd
            have h3 := congrArg (fun r => r.2.pathExists
              (P.join (P.join P.tempDir dirName) (fileFmt version P.fileExt))) hd
            dsimp only at h2 h3
            rw [downloadDriverVersion_calls] at h2
            rw [downloadDriverVersion_pathExists _ _ _ _ _ (writeFile_pathExists _ _ _)] at h3
            exact ⟨h2.symm, hstat, h3.symm⟩
          · next w1 hd =>
            have h2 := congrArg (fun r => r.2.downloadCalls) hd
            have h3 := congrArg (fun r => r.2.pathExists
              (P.join (P.join P.tempDir dirName) (fileFmt version P.fileExt))) hd
            dsimp only at h2 h3
            rw [downloadDriverVersion_calls] at h2
            rw [downloadDriverVersion_pathExists _ _ _ _ _ (writeFile_pathExists _ _ _)] at h3
            exact ⟨h2.symm, hstat, h3.symm⟩

/-- A call that succeeds returns the cache file, which then exists and can be
examined. -/
theorem getDriverForVersion_success (P : Platform) (http : HttpService) (version : Str)
    (w : World) (h : (getDriverForVersion P http version w).1.2 = none) :
    (getDriverForVersion P http version w).1 = (cacheFile P version, none) ∧
      P.statError (cacheFile P version) = none ∧
      (getDriverForVersion P http version w).2.pathExists (cacheFile P version) = true := by
  revert h
  unfold cacheFile getDriverForVersion
  dsimp only
  split
  · intro h; simp at h
  · next hstat =>
    split
    · next hex => intro _; exact ⟨rfl, hstat, hex⟩
    · split
      · intro h; simp at h
      · split
        · intro h; simp at h
        · split
          · intro h; simp at h
          · next w1 hd =>
            intro _
            have h3 := congrArg (fun r => r.2.pathExists
              (P.join (P.join P.tempDir dirName) (fileFmt version P.fileExt))) hd
            dsimp only at h3
            rw [downloadDriverVersion_pathExists _ _ _ _ _ (writeFile_pathExists _ _ _)] at h3
            exact ⟨rfl, hstat, h3.symm⟩

/-- C6: two consecutive calls of `getDriverForVersion` with the same release
call `downloadDriverVersion` at most once in total, and whenever the first call
succeeds the second call succeeds with the identical path and performs no
download (it leaves the whole state as it is). -/
theorem getDriverForVersion_twice (P : Platform) (http : HttpService) (version : Str)
    (w : World) :
    (getDriverForVersion P http version (getDriverForVersion P http version w).2).2.downloadCalls
        ≤ w.downloadCalls + 1 ∧
      ((getDriverForVersion P http version w).1.2 = none →
        getDriverForVersion P http version (getDriverForVersion P http version w).2 =
          (getDriverForVersion P http version w)) := by
  constructor
  · rcases getDriverForVersion_calls P http version w with h1 | ⟨h1, hstat, hex⟩
    · rcases getDriverForVersion_calls P http version (getDriverForVersion P http version w).2
        with h2 | ⟨h2, _, _⟩ <;> omega
    · rw [getDriverForVersion_hit P http version _ hstat hex]
      exact le_of_eq h1
  · intro h
    obtain ⟨hres, hstat, hex⟩ := getDriverForVersion_success P http version w h
    rw [getDriverForVersion_hit P http version _ hstat hex]
    exact Prod.ext hres.symm rfl

/-- C7: when the cache file of a release is absent, the directory and the file
can be created, and `downloadDriverVersion` fails with `err`, the call returns
an error, yet the cache file exists in the resulting state; a later call with
the same release returns that file without error and without calling the
downloader or changing anything. -/
theorem getDriverForVersion_failed_download_leaves_file (P : Platform) (http : HttpService)
    (version : Str) (w : World) (err : GoError)
    (hstat : P.statError (cacheFile P version) = none)
    (habsent : w.pathExists (cacheFile P version) = false)
    (hmkdir : P.mkdirAllError (P.join P.tempDir dirName) = none)
    (hopen : P.openFileError (cacheFile P version) = none)
    (hfail : (downloadDriverVersion P http version (cacheFile P version) w).1 = some err) :
    (getDriverForVersion P http version w).1 =
        ([], some (.wrap "could not create driver file: ".toList err)) ∧
      (getDriverForVersion P http version w).2.pathExists (cacheFile P version) = true ∧
      (getDriverForVersion P http version w).2.downloadCalls = w.downloadCalls + 1 ∧
      getDriverForVersion P http version (getDriverForVersion P http version w).2 =
        ((cacheFile P version, none), (getDriverForVersion P http version w).2) := by
  have hfirst : (getDriverForVersion P http version w).1 =
        ([], some (.wrap "could not create driver file: ".toList err)) ∧
      (getDriverForVersion P http version w).2.pathExists (cacheFile P version) = true ∧
      (getDriverForVersion P http version w).2.downloadCalls = w.downloadCalls + 1 := by
    unfold cacheFile at hstat habsent hopen hfail ⊢
    unfold getDriverForVersion
    simp only [hstat, habsent, hmkdir, hopen, Bool.false_eq_true, if_false]
    split
    · next e w1 hd =>
      have h1 := congrArg (fun r => r.1) hd
      have h2 := congrArg (fun r => r.2.downloadCalls) hd
      have h3 := congrArg (fun r => r.2.pathExists
        (P.join (P.join P.tempDir dirName) (fileFmt version P.fileExt))) hd
      dsimp only at h1 h2 h3
      rw [downloadDriverVersion_outcome P http version _ _ w, hfail] at h1
      rw [downloadDriverVersion_calls] at h2
      rw [downloadDriverVersion_pathExists _ _ _ _ _ (writeFile_pathExists _ _ _)] at h3
      cases h1
      exact ⟨rfl, h3.symm, h2.symm⟩
    · next w1 hd =>
      have h1 := congrArg (fun r => r.1) hd
      dsimp only at h1
      rw [downloadDriverVersion_outcome P http version _ _ w, hfail] at h1
      cases h1
  exact ⟨hfirst.1, hfirst.2.1, hfirst.2.2,
    getDriverForVersion_hit P http version _ hstat hfirst.2.1⟩

theorem getDriverForVersion_failed_download_leaves_file_witness :
    (linuxPlatform.statError (cacheFile linuxPlatform "114.0.5735.90".toList) = none ∧
      emptyWorld.pathExists (cacheFile linuxPlatform "114.0.5735.90".toList) = false ∧
      linuxPlatform.mkdirAllError (linuxPlatform.join linuxPlatform.tempDir dirName) = none ∧
      linuxPlatform.openFileError (cacheFile linuxPlatform "114.0.5735.90".toList) = none ∧
      (downloadDriverVersion linuxPlatform downService "114.0.5735.90".toList
        (cacheFile linuxPlatform "114.0.5735.90".toList) emptyWorld).1 =
        some (.wrap "could not get driver package 114.0.5735.90: ".toList
          (.msg "connection refused".toList))) ∧
    ((getDriverForVersion linuxPlatform downService "114.0.5735.90".toList emptyWorld).1 =
        ([], some (.wrap "could not create driver file: ".toList
          (.wrap "could not get driver package 114.0.5735.90: ".toList
            (.msg "connection refused".toList)))) ∧
      (getDriverForVersion linuxPlatform downService "114.0.5735.90".toList
        emptyWorld).2.pathExists (cacheFile linuxPlatform "114.0.5735.90".toList) = true ∧
      (getDriverForVersion linuxPlatform downService "114.0.5735.90".toList
        emptyWorld).2.downloadCalls = emptyWorld.downloadCalls + 1 ∧
      getDriverForVersion linuxPlatform downService "114.0.5735.90".toList
          (getDriverForVersion linuxPlatform downService "114.0.5735.90".toList emptyWorld).2 =
        ((cacheFile linuxPlatform "114.0.5735.90".toList, none),
          (getDriverForVersion linuxPlatform downService "114.0.5735.90".toList emptyWorld).2)) :=
  ⟨⟨by decide, by decide, by decide, by decide, by decide⟩,
    getDriverForVersion_failed_download_leaves_file linuxPlatform downService
      "114.0.5735.90".toList emptyWorld _ (by decide) (by decide) (by decide) (by decide)
      (by decide)⟩

/-! ### Process supervision on Windows -/

/-- Converting a 32-bit exit code to `int` and back to `uint32` gives the exit
code again, for 32-bit and for 64-bit `int`. -/
theorem intToUint32_uint32ToInt (intBits c : Nat) (hbits : intBits = 32 ∨ intBits = 64)
    (hc : c < 2 ^ 32) : Windows.intToUint32 (Windows.uint32ToInt intBits c) = c := by
  have hc' : c < 4294967296 := by norm_num at hc; exact hc
  unfold Windows.intToUint32 Windows.uint32ToInt
  rcases hbits with rfl | rfl
  · have h1 : c % 2 ^ 32 = c := Nat.mod_eq_of_lt hc
    rw [h1]
    norm_num
    split <;> omega
  · have h1 : c % 2 ^ 64 = c := Nat.mod_eq_of_lt (by norm_num; omega)
    rw [h1]
    norm_num
    split <;> omega

/-- C8: when the child exits on its own with exit code `c`, the exit status of
the supervisor is `c`: for `c ≠ 0`, `runDriver` calls `os.Exit` with
`ExitCode()`, which on a 64-bit platform is the number `c` itself, and for
`c = 0` it returns, after which the program exits with status 0. -/
theorem runDriver_exit_code (intBits c : Nat) (hbits : intBits = 32 ∨ intBits = 64)
    (hc : c < 2 ^ 32) :
    Windows.exitStatus (Windows.runDriver none (Windows.waitExited intBits c)) = c ∧
      (c ≠ 0 → Windows.runDriver none (Windows.waitExited intBits c) =
        .osExit (Windows.uint32ToInt intBits c)) ∧
      (c = 0 → Windows.runDriver none (Windows.waitExited intBits c) = .returned) ∧
      (intBits = 64 → Windows.uint32ToInt intBits c = (c : Int)) := by
  refine ⟨?_, ?_, ?_, ?_⟩
  · by_cases h0 : c = 0
    · subst h0
      simp [Windows.waitExited, Windows.runDriver, Windows.exitStatus]
    · simp only [Windows.waitExited, h0, if_false, Windows.runDriver, Windows.exitStatus]
      exact intToUint32_uint32ToInt intBits c hbits hc
  · intro h0
    simp [Windows.waitExited, h0, Windows.runDriver]
  · intro h0
    simp [Windows.waitExited, h0, Windows.runDriver]
  · intro h64
    subst h64
    have hc' : c < 4294967296 := by norm_num at hc; exact hc
    unfold Windows.uint32ToInt
    have h1 : c % 2 ^ 64 = c := Nat.mod_eq_of_lt (by norm_num; omega)
    rw [h1]
    norm_num
    omega

theorem runDriver_exit_code_witness :
    ((64 = 32 ∨ 64 = 64) ∧ 7 < 2 ^ 32) ∧
      (Windows.exitStatus (Windows.runDriver none (Windows.waitExited 64 7)) = 7 ∧
        (7 ≠ 0 → Windows.runDriver none (Windows.waitExited 64 7) =
          .osExit (Windows.uint32ToInt 64 7)) ∧
        (7 = 0 → Windows.runDriver none (Windows.waitExited 64 7) = .returned) ∧
        (64 = 64 → Windows.uint32ToInt 64 7 = ((7 : Nat) : Int))) :=
  ⟨⟨by decide, by decide⟩, runDriver_exit_code 64 7 (by decide) (by decide)⟩

/-! ### Version probes -/

/-- A registry key that cannot be opened under its own path nor under the
alternative path gives the empty string. -/
theorem getRegistryValue_absent (reg : Windows.Registry) (root : Windows.RegistryKey)
    (path attr : Str) (h : ∀ p, reg root p = none) :
    Windows.getRegistryValue reg root path attr = [] := by
  unfold Windows.getRegistryValue
  simp [h]

/-- C10: the Windows `getInstalledVersion` returns the value of the first of
the candidates user beacon, user updater, machine-wide updater whose lookup is
non-empty, and the empty string when all three lookups are empty; with a
registry in which no key can be opened the result is the empty string. -/
theorem getInstalledVersion_first_nonempty (reg : Windows.Registry) :
    Windows.getInstalledVersion reg =
        (if Windows.getRegistryValue reg .CURRENT_USER Windows.regChromeBeaconKey
            Windows.regChromeBeaconAttr ≠ [] then
          Windows.getRegistryValue reg .CURRENT_USER Windows.regChromeBeaconKey
            Windows.regChromeBeaconAttr
        else if Windows.getRegistryValue reg .CURRENT_USER Windows.regChromeUpdaterStableKey
            Windows.regChromeUpdaterAttr ≠ [] then
          Windows.getRegistryValue reg .CURRENT_USER Windows.regChromeUpdaterStableKey
            Windows.regChromeUpdaterAttr
        else if Windows.getRegistryValue reg .LOCAL_MACHINE Windows.regChromeUpdaterStableKey
            Windows.regChromeUpdaterAttr ≠ [] then
          Windows.getRegistryValue reg .LOCAL_MACHINE Windows.regChromeUpdaterStableKey
            Windows.regChromeUpdaterAttr
        else []) ∧
      Windows.getInstalledVersion (fun _ _ => none) = [] := by
  constructor
  · simp only [Windows.getInstalledVersion, Windows.candidates, Windows.firstVersion]
  · decide

/-- The machine-wide updater key under `Wow6432Node` is found when the two
user candidates and the literal machine-wide key are absent. -/
theorem getInstalledVersion_machineWide :
    Windows.getRegistryValue machineWideRegistry .CURRENT_USER Windows.regChromeBeaconKey
        Windows.regChromeBeaconAttr = [] ∧
      Windows.getRegistryValue machineWideRegistry .CURRENT_USER
        Windows.regChromeUpdaterStableKey Windows.regChromeUpdaterAttr = [] ∧
      Windows.getInstalledVersion machineWideRegistry = "114.0.5735.90".toList := by
  decide

/-- C9, at the failing input: the browser prints `Chromium 123`. The pattern
`(\d+\.?){3,}` matches `123` as three one-digit groups without dots, so
`getInstalledVersion` returns `123`, a version of one component, and
`parseVersion` panics on it. -/
theorem getInstalledVersion_one_component :
    Unix.versionPattern.FindString "Chromium 123 \n".toList = "123".toList ∧
      Unix.getInstalledVersion chromiumSystem = "123".toList ∧
      Split (Unix.getInstalledVersion chromiumSystem) '.' = ["123".toList] ∧
      parseVersion (Unix.getInstalledVersion chromiumSystem) = none := by
  decide

end ChromedriverAuto
